import Mathlib

/-!
Shallow embedding of the task-search plugin (`src/main.ts`) for the
obsidian-task-search repository.

JS strings are modelled as `List Char`; documents are split on `'\n'`
exactly as `content.split("\n")` does.  Regex fragments of the source are
embedded as deterministic matchers (each `\s*` in the source patterns is
followed by a non-whitespace literal, so greedy matching never needs to
backtrack).  Fallible JS operations (an index out of range making
`undefined.replace` throw) are modelled with `Option`.
-/

namespace TaskSearch

/-- JS strings as lists of characters. -/
abbrev Str := List Char

/-- Code points matched by the regex class `\s` that can occur in the
documents handled here (space, tab, LF, CR, VT, FF). -/
def jsIsWsNat (n : Nat) : Bool :=
  n = 32 || n = 9 || n = 10 || n = 13 || n = 11 || n = 12

/-- The regex class `\s` on characters. -/
def jsIsWs (c : Char) : Bool := jsIsWsNat c.toNat

/-- JS `String.prototype.trim`: drop whitespace from both ends. -/
def jsTrim (s : Str) : Str :=
  ((s.dropWhile jsIsWs).reverse.dropWhile jsIsWs).reverse

/-- JS `String.prototype.toLowerCase`, character-wise. -/
def jsToLower (s : Str) : Str := s.map Char.toLower

/-- Embeds `content.split("\n")`. -/
def splitLines (s : Str) : List Str := s.splitOn '\n'

/-- Embeds `lines.join("\n")`. -/
def joinLines (ls : List Str) : Str := List.intercalate ['\n'] ls

/-- JS `String.prototype.includes`: substring containment. -/
def jsIncludes (s pat : Str) : Bool := decide (pat <:+: s)

/-- The literal checkbox token `- [ ]`. -/
def openMarker : Str := ['-', ' ', '[', ' ', ']']

/-- The literal checkbox token `- [x]`. -/
def xMarker : Str := ['-', ' ', '[', 'x', ']']

/-- Deterministic matcher for the regex fragment `\s*-\s*\[<box>\]` applied at
the start of `s` (as in the source patterns `^\s*-\s*\[ \]`, `^\s*-\s*\[x\]`
and the unanchored alternative `\s*-\s*\[ \]`).  Returns the remainder of `s`
after the matched prefix, or `none` when the fragment does not match there.
Greedy `\s*` needs no backtracking because `-` and `[` are not whitespace. -/
def matchDashBox (box : Char) (s : Str) : Option Str :=
  match s.dropWhile jsIsWs with
  | c1 :: r1 =>
    if c1 = '-' then
      match r1.dropWhile jsIsWs with
      | c2 :: b2 :: c3 :: rest2 =>
        if c2 = '[' && b2 = box && c3 = ']' then some rest2 else none
      | _ => none
    else none
  | [] => none

/-- Scan for the unanchored alternative `\s*-\s*\[ \]` of the extraction
regex, replacing the leftmost match with the empty string (JS
`line.replace(..., "")` semantics: everything before the match is kept). -/
def removeTaskMarkerAux : Str → Str
  | [] => []
  | c :: cs =>
    match matchDashBox ' ' (c :: cs) with
    | some rest => rest
    | none => c :: removeTaskMarkerAux cs

/-- Embeds `line.replace(/^\s*-\s*\[x\]|\s*-\s*\[ \]/, "")` from `getTasksFromFile`:
at index 0 the anchored alternative `^\s*-\s*\[x\]` is tried first; the
unanchored alternative `\s*-\s*\[ \]` is then tried left to right (the `^` of
the first alternative fails at every later index). -/
def removeTaskMarker (line : Str) : Str :=
  match matchDashBox 'x' line with
  | some rest => rest
  | none => removeTaskMarkerAux line

/-- The task record of `src/main.ts` (`interface Task`). -/
structure Task where
  text : Str
  completed : Bool
  filePath : Str
  lineNumber : Int
  deriving DecidableEq

/-- One iteration of the extraction loop of `getTasksFromFile`: line `line`
at 0-based index `i` yields a record iff it starts (at position 0, as
`String.prototype.startsWith` checks) with `- [ ]` or `- [x]`. -/
def lineToTask (filePath : Str) (i : Nat) (line : Str) : Option Task :=
  let isCompleted := List.isPrefixOf xMarker line
  let isTask := List.isPrefixOf openMarker line || isCompleted
  if isTask then
    some { text := jsTrim (removeTaskMarker line), completed := isCompleted,
           filePath := filePath, lineNumber := (i : Int) + 1 }
  else none

/-- Source `getTasksFromFile`: split the document on newlines and extract a record
from every qualifying line, in document order. -/
def getTasksFromFile (filePath : Str) (content : Str) : List Task :=
  ((splitLines content).enum).filterMap fun p => lineToTask filePath p.1 p.2

/-- Embeds `line.replace(/^\s*-\s*\[ \]/, "- [x]")` (the replacement string
`"- [x]"` is `xMarker`). -/
def replaceOpenBox (line : Str) : Str :=
  match matchDashBox ' ' line with
  | some rest => xMarker ++ rest
  | none => line

/-- Embeds `line.replace(/^\s*-\s*\[x\]/, "- [ ]")` (the replacement string
`"- [ ]"` is `openMarker`). -/
def replaceXBox (line : Str) : Str :=
  match matchDashBox 'x' line with
  | some rest => openMarker ++ rest
  | none => line

/-- Source `updateTaskInContent`: split the content, rewrite the line at
`task.lineNumber - 1`, join back.  `task.completed` holds the NEW state at
this point (the caller flips it first).  When the index is out of range the
JS code calls `.replace` on `undefined` and throws; that is modelled as
`none`. -/
def updateTaskInContent (content : Str) (task : Task) : Option Str :=
  if 0 ≤ task.lineNumber - 1 then
    match (splitLines content)[(task.lineNumber - 1).toNat]? with
    | some line =>
        some (joinLines ((splitLines content).set (task.lineNumber - 1).toNat
          (if task.completed then replaceOpenBox line else replaceXBox line)))
    | none => none
  else none

/-- The mutable fields of `TaskSearchModal` that the core logic touches.
`debounceTimer` is the milliseconds left until the pending `searchTasks`
call fires (`none` when no timer is pending). -/
structure ModalState where
  tasks : List Task
  filteredTasks : List Task
  selectedTaskIndex : Int
  inputValue : Str
  checkboxChecked : Bool
  debounceTimer : Option Nat
  deriving DecidableEq

/-- Source `resetSearch`: clear the view and the selection. -/
def resetSearch (s : ModalState) : ModalState :=
  { s with filteredTasks := [], selectedTaskIndex := -1 }

/-- The filter predicate of `searchTasks` (its inline arrow function):
`query` is already lowercased by the caller. -/
def taskMatches (query : Str) (showCompleted : Bool) (t : Task) : Bool :=
  jsIncludes (jsToLower t.text) query &&
    (if showCompleted then t.completed else !t.completed)

/-- Source `searchTasks`: lowercase the query, bail out to `resetSearch` when it is
blank, otherwise filter the corpus and reset the selection cursor. -/
def searchTasksFn (s : ModalState) : ModalState :=
  let query := jsToLower s.inputValue
  let showCompleted := s.checkboxChecked
  if jsTrim query = [] then resetSearch s
  else
    let filtered := s.tasks.filter (taskMatches query showCompleted)
    { s with filteredTasks := filtered,
             selectedTaskIndex := if filtered.length > 0 then 0 else -1 }

/-- Source `debouncedSearch`: cancel any pending timer and schedule `searchTasks`
after 300 ms. -/
def debouncedSearch (s : ModalState) : ModalState :=
  { s with debounceTimer := some 300 }

/-- Source `toggleCompletedTasks`: flip the completed-filter checkbox, then call
`debouncedSearch` (not `searchTasks`). -/
def toggleCompletedTasks (s : ModalState) : ModalState :=
  debouncedSearch { s with checkboxChecked := !s.checkboxChecked }

/-- Let `t` milliseconds of quiet time pass: a pending timer fires
`searchTasks` when its delay is reached, otherwise it keeps counting down. -/
def elapse (t : Nat) (s : ModalState) : ModalState :=
  match s.debounceTimer with
  | some d =>
    if d ≤ t then searchTasksFn { s with debounceTimer := none }
    else { s with debounceTimer := some (d - t) }
  | none => s

/-- Source `selectNextTask`: no-op on an empty view, else advance modulo the view
length (`Int.tmod` is the truncating `%` of JS). -/
def selectNextTask (s : ModalState) : ModalState :=
  if s.filteredTasks.length = 0 then s
  else { s with
         selectedTaskIndex :=
           Int.tmod (s.selectedTaskIndex + 1) s.filteredTasks.length }

/-- Source `selectPreviousTask`: no-op on an empty view, else step back modulo the
view length. -/
def selectPreviousTask (s : ModalState) : ModalState :=
  if s.filteredTasks.length = 0 then s
  else { s with
         selectedTaskIndex :=
           Int.tmod (s.selectedTaskIndex - 1 + s.filteredTasks.length)
             s.filteredTasks.length }

/-- The vault: a list of (path, content) files.  `getAbstractFileByPath`
resolves a path iff a file with that path is present. -/
structure Vault where
  files : List (Str × Str)
  deriving DecidableEq

/-- Embeds `vault.getAbstractFileByPath` followed by `vault.read`. -/
def Vault.read (v : Vault) (path : Str) : Option Str :=
  (v.files.find? fun f => decide (f.1 = path)).map (·.2)

/-- Embeds `vault.modify`: overwrite the content stored under `path`. -/
def Vault.modify (v : Vault) (path : Str) (newContent : Str) : Vault :=
  ⟨v.files.map fun f => if f.1 = path then (f.1, newContent) else f⟩

/-- Source `handleTaskCompletion` for the checkbox of result row `i`, whose DOM
checkbox now reads `checked`.  The source mutates the shared `Task` object
(`task.completed = checkbox.checked`) BEFORE resolving the file; sharing is
modelled by writing the updated record back at its view index.  When the
path does not resolve the write is skipped; when `updateTaskInContent`
throws (out-of-range line) `vault.modify` is never reached.  In every case
the flipped record stays in the in-memory state. -/
def handleTaskCompletion (s : ModalState) (v : Vault) (i : Nat)
    (checked : Bool) : ModalState × Vault :=
  match s.filteredTasks[i]? with
  | none => (s, v)
  | some task =>
    let task2 := { task with completed := checked }
    let s2 := { s with filteredTasks := s.filteredTasks.set i task2 }
    match v.read task.filePath with
    | some content =>
      match updateTaskInContent content task2 with
      | some newContent => (s2, v.modify task.filePath newContent)
      | none => (s2, v)
    | none => (s2, v)

/-- The corpus rebuild loop of `getTasks`.  Reads are fallible
(`vault.cachedRead` can reject): a file is `(path, some content)` when
readable and `(path, none)` when its read throws.  The source has no
`try`/`catch`, so a throw aborts the loop with `this.tasks` left holding
the records pushed so far; the `Bool` records whether the loop completed. -/
def getTasksLoop : List (Str × Option Str) → List Task → List Task × Bool
  | [], acc => (acc, true)
  | (_, none) :: _, acc => (acc, false)
  | (p, some c) :: rest, acc => getTasksLoop rest (acc ++ getTasksFromFile p c)

/-- Source `getTasks`: clear `this.tasks`, then run the rebuild loop. -/
def getTasksRun (files : List (Str × Option Str)) : List Task × Bool :=
  getTasksLoop files []

/-- Spec-side extractor, for comparison with `getTasksFromFile`: a line
yields a record iff the literal token `- [ ]` or `- [x]` sits at the very
start of the line; `completed` is true exactly for the `- [x]` form, `text`
is the remainder after the 5-character marker trimmed, `lineNumber` the
1-based line index, records in document order. -/
def extractSpec (filePath : Str) (content : Str) : List Task :=
  ((splitLines content).enum).filterMap fun p =>
    if List.isPrefixOf openMarker p.2 || List.isPrefixOf xMarker p.2 then
      some { text := jsTrim (p.2.drop 5),
             completed := List.isPrefixOf xMarker p.2,
             filePath := filePath, lineNumber := (p.1 : Int) + 1 }
    else none

/-- Sample record used to instantiate theorems on concrete inputs. -/
def tA : Task :=
  { text := ['a'], completed := false, filePath := ['f'], lineNumber := 1 }

/-- Sample modal state: one incomplete task `a` in file `f`, query `a`,
completed filter off, view showing the task. -/
def sA : ModalState :=
  { tasks := [tA], filteredTasks := [tA], selectedTaskIndex := 0,
    inputValue := ['a'], checkboxChecked := false, debounceTimer := none }

/-- Sample modal state with an empty filtered view (no selection). -/
def sB : ModalState :=
  { tasks := [tA], filteredTasks := [], selectedTaskIndex := -1,
    inputValue := [], checkboxChecked := false, debounceTimer := none }

/-- The record of the claim scenario `{line: 1, completed: false}` AFTER the
caller has flipped `completed` to the new state `true`. -/
def c4task : Task :=
  { text := ['a'], completed := true, filePath := ['f'], lineNumber := 1 }

/-- The document of the claim scenario: `"- [ ] a\n- [x] b\n"`. -/
def c4content : Str := "- [ ] a\n- [x] b\n".toList

/-- A vault with no files at all. -/
def vEmpty : Vault := ⟨[]⟩

/-- A vault where file `f` holds the single line `plain`. -/
def vPlain : Vault := ⟨[(['f'], "plain".toList)]⟩

example : getTasksFromFile ['f'] ("- [ ] buy milk\n- [x] pay rent #bills\nplain text".toList) =
    [ { text := "buy milk".toList, completed := false, filePath := ['f'], lineNumber := 1 },
      { text := "pay rent #bills".toList, completed := true, filePath := ['f'], lineNumber := 2 } ] := by
  decide

/-! ### Helper lemmas about the embedded string operations -/

theorem matchDashBox_open_marker (r : Str) :
    matchDashBox ' ' (openMarker ++ r) = some r := rfl

theorem matchDashBox_x_marker (r : Str) :
    matchDashBox 'x' (xMarker ++ r) = some r := rfl

theorem matchDashBox_x_of_open (r : Str) :
    matchDashBox 'x' (openMarker ++ r) = none := rfl

theorem matchDashBox_open_of_x (r : Str) :
    matchDashBox ' ' (xMarker ++ r) = none := rfl

theorem removeTaskMarker_open (r : Str) :
    removeTaskMarker (openMarker ++ r) = r := rfl

theorem removeTaskMarker_x (r : Str) :
    removeTaskMarker (xMarker ++ r) = r := rfl

theorem open_append_drop5 (r : Str) : (openMarker ++ r).drop 5 = r := rfl

theorem x_append_drop5 (r : Str) : (xMarker ++ r).drop 5 = r := rfl

theorem isPrefixOf_append_self (m r : Str) :
    List.isPrefixOf m (m ++ r) = true :=
  List.isPrefixOf_iff_prefix.mpr ⟨r, rfl⟩

theorem toNat_ofNatAux (n : Nat) (h : n.isValidChar) :
    (Char.ofNatAux n h).toNat = n := by
  simp only [Char.ofNatAux, Char.toNat, UInt32.toNat]
  exact BitVec.toNat_ofNatLt _ _

theorem toNat_charOfNat {n : Nat} (h : n.isValidChar) :
    (Char.ofNat n).toNat = n := by
  unfold Char.ofNat
  rw [dif_pos h]
  exact toNat_ofNatAux n h

theorem jsIsWsNat_false_of_ge {n : Nat} (h : 65 ≤ n) : jsIsWsNat n = false := by
  unfold jsIsWsNat
  simp only [Bool.or_eq_false_iff, decide_eq_false_iff_not]
  omega

/-- Lowercasing maps no character into or out of the whitespace class. -/
theorem jsIsWs_toLower (c : Char) : jsIsWs (Char.toLower c) = jsIsWs c := by
  unfold Char.toLower
  by_cases h : c.toNat ≥ 65 ∧ c.toNat ≤ 90
  · rw [if_pos h]
    unfold jsIsWs
    rw [toNat_charOfNat (Or.inl (by omega))]
    rw [jsIsWsNat_false_of_ge (by omega), jsIsWsNat_false_of_ge h.1]
  · rw [if_neg h]

theorem jsTrim_eq_nil_iff {s : Str} : jsTrim s = [] ↔ ∀ c ∈ s, jsIsWs c := by
  unfold jsTrim
  rw [List.reverse_eq_nil_iff, List.dropWhile_eq_nil_iff]
  constructor
  · intro h c hc
    by_cases hcs : c ∈ s.dropWhile jsIsWs
    · exact h c (List.mem_reverse.mpr hcs)
    · have hsplit := List.takeWhile_append_dropWhile jsIsWs s
      rcases List.mem_append.mp (hsplit ▸ hc) with h1 | h1
      · exact List.mem_takeWhile_imp h1
      · exact absurd h1 hcs
  · intro h c hc
    exact h c ((List.dropWhile_sublist jsIsWs).subset (List.mem_reverse.mp hc))

/-- Lowercasing does not change whether the trimmed string is empty. -/
theorem jsTrim_toLower_eq_nil_iff {s : Str} :
    jsTrim (jsToLower s) = [] ↔ jsTrim s = [] := by
  rw [jsTrim_eq_nil_iff, jsTrim_eq_nil_iff]
  unfold jsToLower
  constructor
  · intro h c hc
    have hm := h (Char.toLower c) (List.mem_map_of_mem _ hc)
    rwa [jsIsWs_toLower] at hm
  · intro h c hc
    obtain ⟨d, hd, rfl⟩ := List.mem_map.mp hc
    rw [jsIsWs_toLower]
    exact h d hd

/-! ### Lines and the split/join round trip -/

theorem mem_splitOnP_not_sat {α : Type} {p : α → Bool} :
    ∀ (s : List α), ∀ l ∈ List.splitOnP p s, ∀ c ∈ l, p c = false := by
  intro s
  induction s with
  | nil =>
    intro l hl c hc
    rw [List.splitOnP_nil, List.mem_singleton] at hl
    subst hl
    simp at hc
  | cons a s ih =>
    intro l hl c hc
    rw [List.splitOnP_cons] at hl
    by_cases hpa : p a
    · rw [if_pos hpa] at hl
      rcases List.mem_cons.mp hl with rfl | h
      · simp at hc
      · exact ih l h c hc
    · rw [if_neg hpa] at hl
      rcases hsp : List.splitOnP p s with _ | ⟨h0, t⟩
      · exact absurd hsp (List.splitOnP_ne_nil p s)
      · rw [hsp] at hl
        simp only [List.modifyHead] at hl
        rcases List.mem_cons.mp hl with rfl | h
        · rcases List.mem_cons.mp hc with rfl | hc2
          · exact Bool.eq_false_iff.mpr hpa
          · exact ih h0 (hsp ▸ List.mem_cons_self _ _) c hc2
        · exact ih l (hsp ▸ List.mem_cons_of_mem _ h) c hc

theorem splitLines_no_newline {s : Str} : ∀ l ∈ splitLines s, ('\n' : Char) ∉ l := by
  intro l hl hc
  have h := mem_splitOnP_not_sat s l hl '\n' hc
  simp at h

theorem splitLines_ne_nil (s : Str) : splitLines s ≠ [] :=
  List.splitOnP_ne_nil _ s

theorem joinLines_splitLines (s : Str) : joinLines (splitLines s) = s :=
  List.intercalate_splitOn s '\n'

theorem splitLines_joinLines {ls : List Str} (h1 : ∀ l ∈ ls, ('\n' : Char) ∉ l)
    (h2 : ls ≠ []) : splitLines (joinLines ls) = ls :=
  List.splitOn_intercalate ls '\n' h1 h2

theorem set_getElem_same {α : Type} :
    ∀ (ls : List α) (i : Nat) (l : α), ls[i]? = some l → ls.set i l = ls
  | [], _, _, h => by simp at h
  | a :: t, 0, l, h => by
    rw [List.getElem?_cons_zero] at h
    injection h with h
    rw [List.set_cons_zero, h]
  | a :: t, i + 1, l, h => by
    rw [List.getElem?_cons_succ] at h
    rw [List.set_cons_succ, set_getElem_same t i l h]

/-! ### Inverting the checkbox matcher -/

theorem matchDashBox_inv {b : Char} {line rest : Str}
    (h : matchDashBox b line = some rest) :
    ∃ r1, line.dropWhile jsIsWs = '-' :: r1 ∧
      r1.dropWhile jsIsWs = '[' :: b :: ']' :: rest := by
  unfold matchDashBox at h
  split at h
  case h_2 => exact absurd h (by simp)
  case h_1 c1 r1 heq =>
    split at h
    case isFalse => exact absurd h (by simp)
    case isTrue hc1 =>
      split at h
      case h_2 => exact absurd h (by simp)
      case h_1 c2 b2 c3 rest2 heq2 =>
        split at h
        case isFalse => exact absurd h (by simp)
        case isTrue hx =>
          injection h with h
          subst h
          simp only [Bool.and_eq_true, decide_eq_true_eq] at hx
          obtain ⟨⟨h1, h2⟩, h3⟩ := hx
          subst hc1 h1 h2 h3
          exact ⟨r1, heq, heq2⟩

theorem matchDashBox_sublist {b : Char} {line rest : Str}
    (h : matchDashBox b line = some rest) : rest.Sublist line := by
  obtain ⟨r1, h1, h2⟩ := matchDashBox_inv h
  have sfx : rest.Sublist ('[' :: b :: ']' :: rest) :=
    ((List.sublist_cons_self _ _).trans (List.sublist_cons_self _ _)).trans
      (List.sublist_cons_self _ _)
  have hs1 : rest.Sublist (r1.dropWhile jsIsWs) := by rw [h2]; exact sfx
  have hs2 : rest.Sublist ('-' :: r1) :=
    (hs1.trans (List.dropWhile_sublist _)).trans (List.sublist_cons_self _ _)
  have hs3 : rest.Sublist (line.dropWhile jsIsWs) := by rw [h1]; exact hs2
  exact hs3.trans (List.dropWhile_sublist _)

theorem replaceOpenBox_eq_of_none {l : Str} (h : matchDashBox ' ' l = none) :
    replaceOpenBox l = l := by
  unfold replaceOpenBox
  rw [h]

theorem replaceOpenBox_eq_of_some {l r : Str} (h : matchDashBox ' ' l = some r) :
    replaceOpenBox l = xMarker ++ r := by
  unfold replaceOpenBox
  rw [h]

theorem replaceXBox_eq_of_none {l : Str} (h : matchDashBox 'x' l = none) :
    replaceXBox l = l := by
  unfold replaceXBox
  rw [h]

theorem replaceXBox_eq_of_some {l r : Str} (h : matchDashBox 'x' l = some r) :
    replaceXBox l = openMarker ++ r := by
  unfold replaceXBox
  rw [h]

theorem replaceOpenBox_idem (l : Str) :
    replaceOpenBox (replaceOpenBox l) = replaceOpenBox l := by
  rcases h : matchDashBox ' ' l with _ | r
  · rw [replaceOpenBox_eq_of_none h, replaceOpenBox_eq_of_none h]
  · rw [replaceOpenBox_eq_of_some h,
      replaceOpenBox_eq_of_none (matchDashBox_open_of_x r)]

theorem replaceXBox_idem (l : Str) :
    replaceXBox (replaceXBox l) = replaceXBox l := by
  rcases h : matchDashBox 'x' l with _ | r
  · rw [replaceXBox_eq_of_none h, replaceXBox_eq_of_none h]
  · rw [replaceXBox_eq_of_some h,
      replaceXBox_eq_of_none (matchDashBox_x_of_open r)]

theorem not_newline_replaceOpenBox {l : Str} (hl : ('\n' : Char) ∉ l) :
    ('\n' : Char) ∉ replaceOpenBox l := by
  rcases h : matchDashBox ' ' l with _ | r
  · rw [replaceOpenBox_eq_of_none h]
    exact hl
  · rw [replaceOpenBox_eq_of_some h]
    intro hmem
    rcases List.mem_append.mp hmem with hm | hm
    · simp [xMarker] at hm
    · exact hl ((matchDashBox_sublist h).subset hm)

theorem not_newline_replaceXBox {l : Str} (hl : ('\n' : Char) ∉ l) :
    ('\n' : Char) ∉ replaceXBox l := by
  rcases h : matchDashBox 'x' l with _ | r
  · rw [replaceXBox_eq_of_none h]
    exact hl
  · rw [replaceXBox_eq_of_some h]
    intro hmem
    rcases List.mem_append.mp hmem with hm | hm
    · simp [openMarker] at hm
    · exact hl ((matchDashBox_sublist h).subset hm)

/-! ### Facts about the single-line mutation -/

/-- Evaluation of `updateTaskInContent` when the target line exists. -/
theorem updateTaskInContent_eq (content : Str) (task : Task) (line : Str)
    (h0 : 0 ≤ task.lineNumber - 1)
    (hl : (splitLines content)[(task.lineNumber - 1).toNat]? = some line) :
    updateTaskInContent content task =
      some (joinLines ((splitLines content).set (task.lineNumber - 1).toNat
        (if task.completed then replaceOpenBox line else replaceXBox line))) := by
  unfold updateTaskInContent
  rw [if_pos h0, hl]

/-- Splitting the mutated document recovers exactly the mutated line list,
provided the replacement line holds no newline. -/
theorem splitLines_set (content : Str) (i : Nat) (nl : Str)
    (hnl : ('\n' : Char) ∉ nl) :
    splitLines (joinLines ((splitLines content).set i nl)) =
      (splitLines content).set i nl := by
  apply splitLines_joinLines
  · intro l hl hc
    rcases List.mem_or_eq_of_mem_set hl with hm | rfl
    · exact splitLines_no_newline _ hm hc
    · exact hnl hc
  · intro hnil
    have := splitLines_ne_nil content
    have hlen := List.length_set (splitLines content) i nl
    rw [hnil] at hlen
    simp at hlen
    exact this (List.length_eq_zero.mp hlen.symm)

/-! ### C1: which lines yield a task record -/

/-- C1: the claim states that a line yields a record iff, AFTER STRIPPING
LEADING WHITESPACE, it begins with `- [ ]` or `- [x]`.  False: the line
`" - [ ] a"` begins with the marker once its leading space is stripped,
yet `getTasksFromFile` (which uses `startsWith` on the raw line) yields no
record for it. -/
theorem C1_counterexample :
    List.isPrefixOf openMarker ((" - [ ] a".toList).dropWhile jsIsWs) = true ∧
    getTasksFromFile ['f'] (" - [ ] a".toList) = [] := by
  constructor
  · decide
  · decide

/-- C1 (amended): a line yields exactly one record iff the literal token
`- [ ]` or `- [x]` sits at the very start of the line (a line with leading
whitespace before the marker yields nothing); the completed flag is true
exactly for the `- [x]` form, the text is the remainder after the marker
trimmed, the lineNumber is the 1-based line index, and records preserve
document line order — stated as equality with the line-anchored reference
extractor `extractSpec`. -/
theorem C1_amended (filePath content : Str) :
    getTasksFromFile filePath content = extractSpec filePath content := by
  unfold getTasksFromFile extractSpec
  apply List.filterMap_congr
  intro p _
  unfold lineToTask
  cases hx : List.isPrefixOf xMarker p.2 with
  | true =>
    obtain ⟨r, hr⟩ := List.isPrefixOf_iff_prefix.mp hx
    rw [← hr]
    simp [isPrefixOf_append_self, removeTaskMarker_x, x_append_drop5]
  | false =>
    cases ho : List.isPrefixOf openMarker p.2 with
    | true =>
      obtain ⟨r, hr⟩ := List.isPrefixOf_iff_prefix.mp ho
      have hx2 : List.isPrefixOf xMarker (openMarker ++ r) = false := by
        rw [hr]; exact hx
      rw [← hr]
      simp [isPrefixOf_append_self, hx2, removeTaskMarker_open, open_append_drop5]
    | false =>
      simp [hx, ho]

/-! ### C4: the mutation touches exactly the checkbox token of one line -/

/-- C4: for every document and record whose target line exists and begins
with the checkbox marker of the record's prior state, the toggle succeeds
and the mutated document's line list equals the old one with ONLY line
`lineNumber - 1` changed, and on that line only the 5-character checkbox
token is replaced by the opposite one — the remainder `r` of the line and
all other lines are byte-identical. -/
theorem C4_frame (content : Str) (task : Task) (r : Str)
    (h0 : 0 ≤ task.lineNumber - 1)
    (hl : (splitLines content)[(task.lineNumber - 1).toNat]? =
      some ((if task.completed then openMarker else xMarker) ++ r)) :
    ∃ newContent, updateTaskInContent content task = some newContent ∧
      splitLines newContent =
        (splitLines content).set (task.lineNumber - 1).toNat
          ((if task.completed then xMarker else openMarker) ++ r) := by
  have hmem := List.getElem?_mem hl
  have hr : ('\n' : Char) ∉ r := fun hc =>
    splitLines_no_newline _ hmem (List.mem_append.mpr (Or.inr hc))
  rcases hcomp : task.completed with _ | _
  · simp only [hcomp, Bool.false_eq_true, if_false] at hl ⊢
    refine ⟨joinLines ((splitLines content).set (task.lineNumber - 1).toNat
      (replaceXBox (xMarker ++ r))), ?_, ?_⟩
    · have he := updateTaskInContent_eq content task _ h0 hl
      rw [hcomp] at he
      simp only [Bool.false_eq_true, if_false] at he
      exact he
    · rw [replaceXBox_eq_of_some (matchDashBox_x_marker r)]
      apply splitLines_set
      intro hc
      rcases List.mem_append.mp hc with hm | hm
      · simp [openMarker] at hm
      · exact hr hm
  · simp only [hcomp, if_true] at hl ⊢
    refine ⟨joinLines ((splitLines content).set (task.lineNumber - 1).toNat
      (replaceOpenBox (openMarker ++ r))), ?_, ?_⟩
    · have he := updateTaskInContent_eq content task _ h0 hl
      rw [hcomp] at he
      simp only [if_true] at he
      exact he
    · rw [replaceOpenBox_eq_of_some (matchDashBox_open_marker r)]
      apply splitLines_set
      intro hc
      rcases List.mem_append.mp hc with hm | hm
      · simp [xMarker] at hm
      · exact hr hm

/-- Witness for `C4_frame`: the claim's own scenario — content
`"- [ ] a\n- [x] b\n"`, the line-1 record toggled to completed — produces
`"- [x] a\n- [x] b\n"` exactly. -/
theorem C4_frame_witness :
    (0 ≤ c4task.lineNumber - 1) ∧
    ((splitLines c4content)[(c4task.lineNumber - 1).toNat]? =
      some ((if c4task.completed then openMarker else xMarker) ++ (' ' :: ['a']))) ∧
    (∃ newContent, updateTaskInContent c4content c4task = some newContent ∧
      splitLines newContent =
        (splitLines c4content).set (c4task.lineNumber - 1).toNat
          ((if c4task.completed then xMarker else openMarker) ++ (' ' :: ['a']))) ∧
    updateTaskInContent c4content c4task = some ("- [x] a\n- [x] b\n".toList) :=
  ⟨by decide, by decide,
   C4_frame c4content c4task (' ' :: ['a']) (by decide) (by decide),
   by decide⟩

/-! ### C9: the mutation is idempotent for a fixed target state -/

/-- C9: applying the completion mutation twice with the same target state is
idempotent on the document — if the first application succeeds and yields
`c1`, the second application on `c1` succeeds and yields `c1` again. -/
theorem C9_idem (content c1 : Str) (task : Task)
    (h : updateTaskInContent content task = some c1) :
    updateTaskInContent c1 task = some c1 := by
  unfold updateTaskInContent at h
  by_cases h0 : 0 ≤ task.lineNumber - 1
  case neg =>
    rw [if_neg h0] at h
    exact absurd h (by simp)
  rw [if_pos h0] at h
  rcases hl : (splitLines content)[(task.lineNumber - 1).toNat]? with _ | line
  · rw [hl] at h
    exact absurd h (by simp)
  · rw [hl] at h
    injection h with h
    have hmem := List.getElem?_mem hl
    have hnonl : ('\n' : Char) ∉ line := splitLines_no_newline _ hmem
    have hnl2 : ('\n' : Char) ∉
        (if task.completed then replaceOpenBox line else replaceXBox line) := by
      rcases task.completed
      · exact not_newline_replaceXBox hnonl
      · exact not_newline_replaceOpenBox hnonl
    have hsplit := splitLines_set content (task.lineNumber - 1).toNat _ hnl2
    rw [h] at hsplit
    have hlt : (task.lineNumber - 1).toNat < (splitLines content).length :=
      (List.getElem?_eq_some.mp hl).1
    have hl2 : (splitLines c1)[(task.lineNumber - 1).toNat]? =
        some (if task.completed then replaceOpenBox line else replaceXBox line) := by
      rw [hsplit]
      exact List.getElem?_set_self hlt
    have he2 := updateTaskInContent_eq c1 task _ h0 hl2
    rw [hsplit, List.set_set] at he2
    rw [he2, ← h]
    rcases hcomp : task.completed with _ | _ <;>
      simp [hcomp, replaceOpenBox_idem, replaceXBox_idem]

/-- Witness for `C9_idem` at the claim scenario document. -/
theorem C9_idem_witness :
    updateTaskInContent c4content c4task = some ("- [x] a\n- [x] b\n".toList) ∧
    updateTaskInContent ("- [x] a\n- [x] b\n".toList) c4task =
      some ("- [x] a\n- [x] b\n".toList) :=
  ⟨by decide, C9_idem c4content _ c4task (by decide)⟩

/-! ### The checkbox-toggle handler -/

/-- The handler's resulting in-memory state is the same in every branch:
the record at row `i` is replaced by its flipped copy, whether or not the
document resolves or the line rewrite succeeds. -/
theorem handleTaskCompletion_fst (s : ModalState) (v : Vault) (i : Nat)
    (checked : Bool) (task : Task) (h : s.filteredTasks[i]? = some task) :
    (handleTaskCompletion s v i checked).1 =
      { s with filteredTasks :=
          s.filteredTasks.set i { task with completed := checked } } := by
  simp only [handleTaskCompletion, h]
  rcases hv : v.read task.filePath with _ | content
  · simp [hv]
  · rcases hu : updateTaskInContent content { task with completed := checked }
      with _ | nc
    · simp [hv, hu]
    · simp [hv, hu]

/-! ### C2: what happens when the write cannot happen -/

/-- C2 is false on the code: at the sample state `sA` (record `tA` with
`completed = false`) over the empty vault, the record's document does not
resolve and nothing is written — yet the in-memory record's completed flag
flips to `true` and the flipped record stays in the view.  The flag does
not wait for a successful write. -/
theorem C2_counterexample :
    Vault.read vEmpty tA.filePath = none ∧
    (handleTaskCompletion sA vEmpty 0 true).2 = vEmpty ∧
    (handleTaskCompletion sA vEmpty 0 true).1.filteredTasks.map Task.completed
      = [true] ∧
    tA.completed = false := by
  decide

/-- C2 (amended): the record's completed field is set to the checkbox value
unconditionally, before any write is attempted; when the record's document
does not resolve, the store is left untouched, but the flipped record
remains in the in-memory view (the toggle is partial, not rolled back). -/
theorem C2_amended (s : ModalState) (v : Vault) (i : Nat) (checked : Bool)
    (task : Task) (h : s.filteredTasks[i]? = some task) :
    (handleTaskCompletion s v i checked).1.filteredTasks[i]? =
      some { task with completed := checked } ∧
    (v.read task.filePath = none → (handleTaskCompletion s v i checked).2 = v) := by
  constructor
  · rw [handleTaskCompletion_fst s v i checked task h]
    exact List.getElem?_set_self (List.getElem?_eq_some.mp h).1
  · intro hn
    simp [handleTaskCompletion, h, hn]

/-- Witness for `C2_amended` at the sample state over the empty vault. -/
theorem C2_amended_witness :
    sA.filteredTasks[0]? = some tA ∧
    Vault.read vEmpty tA.filePath = none ∧
    (handleTaskCompletion sA vEmpty 0 true).1.filteredTasks[0]? =
      some { tA with completed := true } ∧
    (handleTaskCompletion sA vEmpty 0 true).2 = vEmpty :=
  ⟨by decide, by decide,
   (C2_amended sA vEmpty 0 true tA (by decide)).1,
   (C2_amended sA vEmpty 0 true tA (by decide)).2 (by decide)⟩

/-! ### C3: the stale-locator condition -/

/-- C3 is false on the code: when the target line `plain` is stale (it does
not begin with the prior-state marker), the handler still flips the
in-memory record before looking at the line, leaving the flipped record in
the view — the claim demanded the record and view be left unchanged.
Moreover a line `-  [ ] a` (two spaces) that is stale in the claim's exact
sense (after leading whitespace it does not begin with the literal token
`- [ ]`) IS rewritten to `- [x] a` by the lenient regex. -/
theorem C3_counterexample :
    List.isPrefixOf openMarker (("plain".toList).dropWhile jsIsWs) = false ∧
    (handleTaskCompletion sA vPlain 0 true).1.filteredTasks.map Task.completed
      = [true] ∧
    (handleTaskCompletion sA vPlain 0 true).2 = vPlain ∧
    List.isPrefixOf openMarker (("-  [ ] a".toList).dropWhile jsIsWs) = false ∧
    updateTaskInContent ("-  [ ] a".toList)
      { text := ['a'], completed := true, filePath := ['f'], lineNumber := 1 } =
      some ("- [x] a".toList) := by
  decide

/-- C3 (amended): the code's stale check is the lenient pattern
`\s*-\s*\[<prior>\]` at line start; when the target line does not match it,
no line of the document is rewritten (the content written back equals the
content read, byte for byte) — but the in-memory record is still flipped to
the checkbox value and remains in the view. -/
theorem C3_amended :
    (∀ (content : Str) (task : Task) (line : Str),
      0 ≤ task.lineNumber - 1 →
      (splitLines content)[(task.lineNumber - 1).toNat]? = some line →
      matchDashBox (if task.completed then ' ' else 'x') line = none →
      updateTaskInContent content task = some content) ∧
    (∀ (s : ModalState) (v : Vault) (i : Nat) (checked : Bool) (task : Task),
      s.filteredTasks[i]? = some task →
      (handleTaskCompletion s v i checked).1.filteredTasks[i]? =
        some { task with completed := checked }) := by
  constructor
  · intro content task line h0 hl hstale
    rw [updateTaskInContent_eq content task line h0 hl]
    have hrepl :
        (if task.completed then replaceOpenBox line else replaceXBox line) = line := by
      rcases hcomp : task.completed with _ | _
      · simp only [hcomp, Bool.false_eq_true, if_false] at hstale ⊢
        exact replaceXBox_eq_of_none hstale
      · simp only [hcomp, if_true] at hstale ⊢
        exact replaceOpenBox_eq_of_none hstale
    rw [hrepl, set_getElem_same _ _ _ hl, joinLines_splitLines]
  · intro s v i checked task h
    rw [handleTaskCompletion_fst s v i checked task h]
    exact List.getElem?_set_self (List.getElem?_eq_some.mp h).1

/-- Witness for `C3_amended`: the stale line `plain` is written back
unchanged, and the record in the sample state still flips. -/
theorem C3_amended_witness :
    matchDashBox (if c4task.completed then ' ' else 'x') ("plain".toList) = none ∧
    updateTaskInContent ("plain".toList) c4task = some ("plain".toList) ∧
    (handleTaskCompletion sA vEmpty 0 true).1.filteredTasks[0]? =
      some { tA with completed := true } :=
  ⟨by decide,
   C3_amended.1 ("plain".toList) c4task ("plain".toList)
     (by decide) (by decide) (by decide),
   C3_amended.2 sA vEmpty 0 true tA (by decide)⟩

/-! ### C10: the toggle does not re-filter the view -/

/-- C10: a checkbox toggle on row `i` leaves the filtered view's length and
every other row unchanged and keeps the toggled record at its position with
only its completed field updated; no re-filter runs (corpus, query and
checkbox are untouched).  In the concrete instance the view afterwards
holds a record whose completed flag (`true`) no longer equals the active
completion-filter flag (`false`). -/
theorem C10_view (s : ModalState) (v : Vault) (i : Nat) (checked : Bool)
    (task : Task) (h : s.filteredTasks[i]? = some task) :
    (handleTaskCompletion s v i checked).1.filteredTasks.length =
      s.filteredTasks.length ∧
    (handleTaskCompletion s v i checked).1.filteredTasks[i]? =
      some { task with completed := checked } ∧
    (∀ j, j ≠ i → (handleTaskCompletion s v i checked).1.filteredTasks[j]? =
      s.filteredTasks[j]?) ∧
    (handleTaskCompletion s v i checked).1.checkboxChecked = s.checkboxChecked ∧
    (handleTaskCompletion s v i checked).1.tasks = s.tasks ∧
    (handleTaskCompletion s v i checked).1.inputValue = s.inputValue ∧
    ((handleTaskCompletion sA vEmpty 0 true).1.filteredTasks.map Task.completed
        = [true] ∧
      (handleTaskCompletion sA vEmpty 0 true).1.checkboxChecked = false) := by
  rw [handleTaskCompletion_fst s v i checked task h]
  refine ⟨List.length_set _ _ _, ?_, ?_, rfl, rfl, rfl, by decide⟩
  · exact List.getElem?_set_self (List.getElem?_eq_some.mp h).1
  · intro j hj
    exact List.getElem?_set_ne (fun hij => hj hij.symm)

/-- Witness for `C10_view` at the sample state. -/
theorem C10_view_witness :
    sA.filteredTasks[0]? = some tA ∧
    (handleTaskCompletion sA vEmpty 0 true).1.filteredTasks[0]? =
      some { tA with completed := true } ∧
    (handleTaskCompletion sA vEmpty 0 true).1.filteredTasks.length =
      sA.filteredTasks.length :=
  ⟨by decide, (C10_view sA vEmpty 0 true tA (by decide)).2.1,
   (C10_view sA vEmpty 0 true tA (by decide)).1⟩

/-! ### C6: read failures during the corpus rebuild -/

/-- Loop invariant of the rebuild: the loop accumulates the records of the
documents before the first failing read and reports whether it completed. -/
theorem getTasksLoop_eq (files : List (Str × Option Str)) (acc : List Task) :
    getTasksLoop files acc =
      (acc ++ (files.takeWhile fun f => f.2.isSome).flatMap
        (fun f => match f.2 with | some c => getTasksFromFile f.1 c | none => []),
       files.all fun f => f.2.isSome) := by
  induction files generalizing acc with
  | nil => simp [getTasksLoop]
  | cons f rest ih =>
    rcases f with ⟨p, _ | c⟩
    · simp [getTasksLoop, List.takeWhile_cons, List.all_cons]
    · simp only [getTasksLoop, ih, List.takeWhile_cons, List.all_cons]
      simp

/-- C6 is false on the code: with file `A` unreadable and file `B` readable
and containing a task, the rebuild aborts at `A` — the readable document
`B` contributes nothing, instead of the rebuild continuing. -/
theorem C6_counterexample :
    getTasksFromFile ['B'] ("- [ ] a".toList) ≠ [] ∧
    getTasksRun [(['A'], none), (['B'], some ("- [ ] a".toList))] = ([], false) := by
  decide

/-- C6 (amended): a failing read is not caught: the rebuild loop stops at
the first unreadable document, keeping exactly the records of the documents
before it (an unreadable document itself contributes zero records, but the
remaining documents are skipped rather than processed); the rebuild
completes iff every document is readable. -/
theorem C6_amended (files : List (Str × Option Str)) :
    getTasksRun files =
      ((files.takeWhile fun f => f.2.isSome).flatMap
        (fun f => match f.2 with | some c => getTasksFromFile f.1 c | none => []),
       files.all fun f => f.2.isSome) := by
  have h := getTasksLoop_eq files []
  simpa [getTasksRun] using h

/-! ### C5: the filter engine -/

/-- The filter predicate accepts a record iff the lowered query is a
substring of the lowered text and the completed flag equals the checkbox. -/
theorem taskMatches_iff (q : Str) (b : Bool) (t : Task) :
    taskMatches q b t = true ↔ (q <:+: jsToLower t.text) ∧ t.completed = b := by
  unfold taskMatches jsIncludes
  cases b <;> cases hc : t.completed <;> simp [hc]

/-- Any record in a view produced by `searchTasks` has its completed flag
equal to the completed-filter checkbox at filter time. -/
theorem completed_of_mem_searchTasksFn {s : ModalState} {t : Task}
    (h : t ∈ (searchTasksFn s).filteredTasks) :
    t.completed = s.checkboxChecked := by
  unfold searchTasksFn at h
  by_cases he : jsTrim (jsToLower s.inputValue) = []
  · rw [if_pos he] at h
    simp [resetSearch] at h
  · rw [if_neg he] at h
    simp only [List.mem_filter, taskMatches_iff] at h
    exact h.2.2

/-- C5: filtering returns the empty view when the trimmed query is empty;
otherwise it keeps exactly the records whose case-folded text contains the
case-folded query and whose completed flag equals the checkbox; opposite
checkbox values give disjoint views; surviving records keep their input
order (the view is a sublist of the corpus). -/
theorem C5_filter (s : ModalState) :
    (jsTrim s.inputValue = [] → (searchTasksFn s).filteredTasks = []) ∧
    (jsTrim s.inputValue ≠ [] →
      ∀ t, t ∈ (searchTasksFn s).filteredTasks ↔
        t ∈ s.tasks ∧ (jsToLower s.inputValue) <:+: (jsToLower t.text) ∧
          t.completed = s.checkboxChecked) ∧
    (∀ u : ModalState, u.tasks = s.tasks → u.inputValue = s.inputValue →
      u.checkboxChecked = !s.checkboxChecked →
      ∀ t, t ∈ (searchTasksFn s).filteredTasks →
        t ∈ (searchTasksFn u).filteredTasks → False) ∧
    (searchTasksFn s).filteredTasks.Sublist s.tasks := by
  refine ⟨?_, ?_, ?_, ?_⟩
  · intro h
    unfold searchTasksFn
    rw [if_pos (jsTrim_toLower_eq_nil_iff.mpr h)]
    rfl
  · intro h t
    unfold searchTasksFn
    rw [if_neg fun hh => h (jsTrim_toLower_eq_nil_iff.mp hh)]
    simp only [List.mem_filter, taskMatches_iff]
  · intro u _ _ hu3 t hs hu
    have h1 := completed_of_mem_searchTasksFn hs
    have h2 := completed_of_mem_searchTasksFn hu
    rw [hu3, h1] at h2
    simp at h2
  · unfold searchTasksFn
    by_cases he : jsTrim (jsToLower s.inputValue) = []
    · rw [if_pos he]
      exact List.nil_sublist _
    · rw [if_neg he]
      exact List.filter_sublist _

/-- Witness for `C5_filter` at the sample state `sA` and record `tA`. -/
theorem C5_filter_witness :
    jsTrim sA.inputValue ≠ [] ∧
    (tA ∈ (searchTasksFn sA).filteredTasks ↔
      tA ∈ sA.tasks ∧ (jsToLower sA.inputValue) <:+: (jsToLower tA.text) ∧
        tA.completed = sA.checkboxChecked) ∧
    (searchTasksFn sA).filteredTasks.Sublist sA.tasks :=
  ⟨by decide, (C5_filter sA).2.1 (by decide) tA, (C5_filter sA).2.2.2⟩

/-! ### C7: the completed-filter toggle and the debounce -/

/-- C7 is false on the code: `toggleCompletedTasks` flips the checkbox but
calls `debouncedSearch`, so at the sample state the filtered view is still
the old one (`[tA]`) with a 300 ms timer pending — while the re-filter pass
itself would produce `[]` for the new flag value.  The toggle therefore does
NOT trigger the re-filter immediately. -/
theorem C7_counterexample :
    (toggleCompletedTasks sA).checkboxChecked = true ∧
    (toggleCompletedTasks sA).debounceTimer = some 300 ∧
    (toggleCompletedTasks sA).filteredTasks = [tA] ∧
    (searchTasksFn { sA with checkboxChecked := true }).filteredTasks = [] := by
  decide

/-- C7 (amended): the toggle-completed-filter command flips the flag and
schedules the re-filter through the same 300 ms debounce as text-query
changes (cancel-and-restart); the view is untouched until at least 300 ms
of quiet have elapsed, after which the single pending re-filter runs with
the new flag value. -/
theorem C7_amended (s : ModalState) (t : Nat) :
    (toggleCompletedTasks s).checkboxChecked = !s.checkboxChecked ∧
    (toggleCompletedTasks s).filteredTasks = s.filteredTasks ∧
    (toggleCompletedTasks s).debounceTimer = some 300 ∧
    (t < 300 → (elapse t (toggleCompletedTasks s)).filteredTasks =
      s.filteredTasks) ∧
    (300 ≤ t → elapse t (toggleCompletedTasks s) =
      searchTasksFn { s with checkboxChecked := !s.checkboxChecked,
                             debounceTimer := none }) := by
  refine ⟨rfl, rfl, rfl, ?_, ?_⟩
  · intro ht
    unfold elapse toggleCompletedTasks debouncedSearch
    simp only
    rw [if_neg (by omega)]
  · intro ht
    unfold elapse toggleCompletedTasks debouncedSearch
    simp only
    rw [if_pos ht]

/-- Witness for `C7_amended` at the sample state, 300 ms elapsed. -/
theorem C7_amended_witness :
    (300 ≤ 300) ∧
    elapse 300 (toggleCompletedTasks sA) =
      searchTasksFn { sA with checkboxChecked := !sA.checkboxChecked,
                              debounceTimer := none } :=
  ⟨by decide, (C7_amended sA 300).2.2.2.2 (by decide)⟩

/-! ### C8: the selection cursor -/

/-- C8: with a non-empty view and an in-range cursor, next/previous move by
±1 modulo the view length; both are no-ops on an empty view; and whenever
`searchTasks` replaces the view the cursor is reset to 0 for a non-empty
view and to -1 for an empty one. -/
theorem C8_cursor (s t : ModalState)
    (h0 : 0 ≤ s.selectedTaskIndex)
    (hlt : s.selectedTaskIndex < s.filteredTasks.length)
    (ht : t.filteredTasks = []) :
    (selectNextTask s).selectedTaskIndex =
      (s.selectedTaskIndex + 1) % (s.filteredTasks.length : Int) ∧
    (selectPreviousTask s).selectedTaskIndex =
      (s.selectedTaskIndex - 1 + s.filteredTasks.length) %
        (s.filteredTasks.length : Int) ∧
    selectNextTask t = t ∧ selectPreviousTask t = t ∧
    (∀ u : ModalState, (searchTasksFn u).selectedTaskIndex =
      if (searchTasksFn u).filteredTasks = [] then -1 else 0) := by
  have hL : s.filteredTasks.length ≠ 0 := by
    intro h
    rw [h] at hlt
    omega
  refine ⟨?_, ?_, ?_, ?_, ?_⟩
  · unfold selectNextTask
    rw [if_neg hL]
    exact Int.tmod_eq_emod (by omega) (by positivity)
  · unfold selectPreviousTask
    rw [if_neg hL]
    exact Int.tmod_eq_emod (by omega) (by positivity)
  · unfold selectNextTask
    rw [if_pos (by rw [ht]; rfl)]
  · unfold selectPreviousTask
    rw [if_pos (by rw [ht]; rfl)]
  · intro u
    unfold searchTasksFn
    by_cases he : jsTrim (jsToLower u.inputValue) = []
    · rw [if_pos he]
      rfl
    · rw [if_neg he]
      simp only
      rcases hf : u.tasks.filter (taskMatches (jsToLower u.inputValue) u.checkboxChecked) with _ | ⟨a, l⟩
      · simp [hf]
      · simp [hf]

/-- Witness for `C8_cursor` at the sample states (`sA` non-empty view at
index 0, `sB` empty view). -/
theorem C8_cursor_witness :
    ((0 : Int) ≤ sA.selectedTaskIndex) ∧
    (sA.selectedTaskIndex < sA.filteredTasks.length) ∧
    (sB.filteredTasks = []) ∧
    (selectNextTask sA).selectedTaskIndex =
      (sA.selectedTaskIndex + 1) % (sA.filteredTasks.length : Int) ∧
    selectNextTask sB = sB :=
  ⟨by decide, by decide, by decide,
   (C8_cursor sA sB (by decide) (by decide) (by decide)).1,
   (C8_cursor sA sB (by decide) (by decide) (by decide)).2.2.1⟩

end TaskSearch
